import Mathlib

/-
Verification development for the go-fileMonitor repository.

This file gives a shallow embedding of the repository's latest revision:
  * `Stats` with its uint64 wraparound arithmetic (stats.go),
  * `MatchGroup.Match` and the match loop of `Dir.processFiles`,
  * the per-file processing pipeline `Dir.processFiles` (the latest
    revision of dir processing: match, stat, account, process, publish,
    transport, deferred delete, and `Dir.processError` error diversion),
  * the empty-directory handling of `Dir.readDir`,
  * `Init` of monitor.go,
  * the Copier tagged-union JSON round trip of linux.go
    (`CopierAlias.UnmarshalJSON`, `CopierAlias.GetCopier`,
    `CopierLocal/CopierFtp MarshalJSON`, `getOutFileName`).

Modelling conventions:
  * The file system is a map from path strings to file contents
    (represented by a `Nat`); `os.Stat` succeeds exactly when the path is
    present and reports that content as the size.
  * The Go `regexp` package is external to the repository, so matching is
    parameterised by a `RegexEngine` (a compile function that can fail and
    a matcher); the repository's own logic (normalisation, the
    `matches != exclude` rule, AND-composition, compile-failure handling)
    is embedded faithfully.
  * Copier `Copy` calls perform externally-caused failures (mkdir, create,
    network, FTP) abstractly via a per-copier `ok` flag; a failed copy is
    modelled as leaving the file system unchanged (no claim observes the
    truncated destination file a failed local copy can leave behind).
  * Paths are treated as ASCII so Go's byte indexing agrees with
    character indexing, and `filepath.Join` is modelled on already-clean
    arguments (`goJoin`), which is the form all paths in this development
    take.
-/

namespace FileMonitor

/-- 2^64, the modulus of Go's uint64 arithmetic. -/
def U64MOD : Nat := 18446744073709551616

/-- Model of the `Stats` struct of stats.go: two uint64 counters, kept as
naturals that are always reduced mod 2^64. -/
structure Stats where
  TotalFiles : Nat
  TotalBytes : Nat
deriving DecidableEq, Repr

/-- Model of `Stats.Inc` (stats.go): `TotalFiles.Add(1)` and
`TotalBytes.Add(totalBytes)`, both uint64 additions. -/
def Stats.Inc (s : Stats) (totalBytes : Nat) : Stats :=
  ⟨(s.TotalFiles + 1) % U64MOD, (s.TotalBytes + totalBytes) % U64MOD⟩

/-- Model of `Stats.Sub` (stats.go): `s.TotalFiles.Add(-other.TotalFiles.Load())`
and likewise for bytes.  Negating a uint64 value `x` yields `(2^64 - x) mod 2^64`,
and `Add` is addition mod 2^64. -/
def Stats.Sub (s o : Stats) : Stats :=
  ⟨(s.TotalFiles + (U64MOD - o.TotalFiles % U64MOD)) % U64MOD,
   (s.TotalBytes + (U64MOD - o.TotalBytes % U64MOD)) % U64MOD⟩

/-- Abstract interface to the external Go `regexp` package: compilation can
fail (returning `none`), and a compiled regex decides a Boolean match. -/
structure RegexEngine (ρ : Type) where
  compile : String → Option ρ
  matchString : ρ → String → Bool

/-- Model of `strings.ReplaceAll(filePath, string(filepath.Separator), "/")`:
the separator is a single character, so the replacement is a character map. -/
def replaceSep (sep : Char) (s : String) : String :=
  s.map fun c => if c = sep then '/' else c

/-- Model of the `MatchGroup` struct: the persisted expression text and
exclude flag.  The lazily-compiled cached matcher is behaviourally
equivalent to compiling on demand, which is how `Match` is modelled. -/
structure MatchGroup where
  Expression : String
  Exclude : Bool
deriving DecidableEq, Repr

/-- Model of `MatchGroup.Match` (latest revision): compile the expression
(failure aborts with an error), normalise separators to `/`, and return
`matchString(name) != Exclude`. -/
def MatchGroup.Match {ρ : Type} (m : MatchGroup) (E : RegexEngine ρ) (sep : Char)
    (filePath : String) : Except String Bool :=
  match E.compile m.Expression with
  | none => .error ("failed to compile regex: " ++ m.Expression)
  | some r => .ok (E.matchString r (replaceSep sep filePath) != m.Exclude)

/-- The match loop at the top of `Dir.processFiles`: rules are tried in
order; a rule error aborts with that error, a non-match aborts with
`ok false`, and the file is accepted (`ok true`) only when every rule
passes. -/
def matchLoop {ρ : Type} (E : RegexEngine ρ) (sep : Char) (filePath : String) :
    List MatchGroup → Except String Bool
  | [] => .ok true
  | g :: gs =>
    match g.Match E sep filePath with
    | .error e => .error e
    | .ok false => .ok false
    | .ok true => matchLoop E sep filePath gs

/-- The file system: a map from (cleaned) path strings to file contents. -/
def FS : Type := String → Option Nat

/-- Creating/truncating a file at `p` with content `v`. -/
def writeFS (fs : FS) (p : String) (v : Nat) : FS :=
  fun q => if q = p then some v else fs q

/-- Model of `os.Remove`: fails (returns `none`) when the path is absent,
otherwise removes the entry. -/
def removeFS (fs : FS) (p : String) : Option FS :=
  match fs p with
  | some _ => some (fun q => if q = p then none else fs q)
  | none => none

/-- Model of Go's `filepath.Join` on two already-clean arguments. -/
def goJoin (a b : String) : String :=
  if a = "" then b
  else if b = "" then a
  else if b.take 1 = "/" then a ++ b
  else a ++ "/" ++ b

/-- Model of `getOutFileName` (linux.go, latest revision): when the monitor
directory starts with `"."` drop `len(monitorDir)-2` leading characters of
the source path, otherwise drop `len(monitorDir)` characters, and join the
remainder under the destination root. -/
def getOutFileName (inFilePath monitorDir destination : String) : String :=
  if monitorDir.take 1 = "." then
    goJoin destination (inFilePath.drop (monitorDir.length - 2))
  else
    goJoin destination (inFilePath.drop monitorDir.length)

/-- A `ResultPublisher` collaborator, modelled by the outcome of its
`Publish` call for the file under consideration. -/
structure Publisher where
  ok : Bool
deriving DecidableEq, Repr

/-- A `Copier` (Transport) variant as used by the pipeline: its destination
root, plus the outcome of the externally-caused parts of its `Copy` call
(directory creation, file creation, network transfer). -/
structure Copier where
  Destination : String
  ok : Bool
deriving DecidableEq, Repr

/-- Model of `Copier.Copy(filePath, monitorDir)` (CopierLocal/CopierFtp of
linux.go): on external failure (`ok = false`) or when the source cannot be
opened, report an error; otherwise write the source's content to
`getOutFileName(filePath, monitorDir, Destination)`. -/
def Copier.CopyFS (c : Copier) (fs : FS) (filePath monitorDir : String) :
    Except String FS :=
  if c.ok = false then .error ("error copying file to " ++ c.Destination)
  else
    match fs filePath with
    | none => .error "error opening file"
    | some data => .ok (writeFS fs (getOutFileName filePath monitorDir c.Destination) data)

/-- Model of the `Dir` struct (latest revision).  `Processor` models the
`*Processor` pointer together with the outcome of its single
`Process` invocation for the file at hand: `none` means no processor is
configured, `some b` means a processor is configured and its `Process`
call succeeds exactly when `b = true` (the produced records and ids are
opaque to every claim, so their values are not modelled). -/
structure Dir where
  Name : String := ""
  MonitorFolder : String
  MonitorFrequency : Nat := 0
  KeepEmptyDirs : Bool := false
  MatchGroups : List MatchGroup := []
  Processor : Option Bool := none
  Publishers : List Publisher := []
  Copiers : List Copier := []
  ErrorCopiers : List Copier := []

/-- The loop inside `Dir.processError`: run `Copy` of every error copier in
order against the same source file, collecting the error of each failed
copy (in order) and continuing past failures. -/
def errCopyLoop (fs : FS) (filePath monitorFolder : String) :
    List Copier → FS × List String
  | [] => (fs, [])
  | c :: cs =>
    match c.CopyFS fs filePath monitorFolder with
    | .ok fs' => errCopyLoop fs' filePath monitorFolder cs
    | .error e =>
      let r := errCopyLoop fs filePath monitorFolder cs
      (r.1, e :: r.2)

/-- The error classification at the end of `Dir.processError`: zero
failures return nil, one failure is wrapped, several failures are
concatenated behind their count. -/
def classifyErrors : List String → Option String
  | [] => none
  | [e] => some ("error occurred while processing errors: " ++ e)
  | es => some (toString es.length ++ " errors occurred while processing files: "
      ++ String.join (es.map fun e => "\n" ++ e))

/-- Model of `Dir.processError` (latest revision): run every error copier,
then classify the collected failures.  Returns the resulting file system
and the returned error (if any). -/
def Dir.processError (d : Dir) (fs : FS) (inFilePath monitorFolder : String) :
    FS × Option String :=
  let r := errCopyLoop fs inFilePath monitorFolder d.ErrorCopiers
  (r.1, classifyErrors r.2)

/-- The publisher loop of `Dir.processFiles` (latest revision), verbatim
from the source: a failed `Publish` returns immediately (stopping the
loop, running only the deferred delete), while a successful `Publish` is
followed by a call to `d.processError` before the next publisher. -/
def Dir.pubLoop (d : Dir) (fs : FS) (inFilePath : String) :
    List Publisher → FS × Bool
  | [] => (fs, true)
  | p :: ps =>
    if p.ok then
      d.pubLoop (d.processError fs inFilePath d.MonitorFolder).1 inFilePath ps
    else (fs, false)

/-- The success-transport loop of `Dir.processFiles`: copiers run in
order; the first failure calls `d.processError` and stops the loop. -/
def Dir.copyLoop (d : Dir) (fs : FS) (inFilePath : String) :
    List Copier → FS × Bool
  | [] => (fs, true)
  | c :: cs =>
    match c.CopyFS fs inFilePath d.MonitorFolder with
    | .ok fs' => d.copyLoop fs' inFilePath cs
    | .error _ => ((d.processError fs inFilePath d.MonitorFolder).1, false)

/-- The body of `Dir.processFiles` after the stat step: process (if a
processor is configured), publish, then transport.  Returns the file
system as it stands when the function body returns (before the deferred
delete runs). -/
def Dir.pipelineBody (d : Dir) (fs : FS) (inFilePath : String) : FS :=
  match d.Processor with
  | none => (d.copyLoop fs inFilePath d.Copiers).1
  | some pOk =>
    if pOk then
      let pr := d.pubLoop fs inFilePath d.Publishers
      if pr.2 then (d.copyLoop pr.1 inFilePath d.Copiers).1 else pr.1
    else (d.processError fs inFilePath d.MonitorFolder).1

/-- The deferred delete of `Dir.processFiles`: remove the source file; if
removal itself fails, divert through `d.processError`. -/
def Dir.runDefer (d : Dir) (fs : FS) (inFilePath : String) : FS :=
  match removeFS fs inFilePath with
  | some fs' => fs'
  | none => (d.processError fs inFilePath d.MonitorFolder).1

/-- Model of `Dir.processFiles` (latest revision) given the joined source
path: evaluate the match rules (an error or a non-match returns with no
effects), stat the file (failure diverts through `processError` and
returns, with no deferred delete registered yet), account the size in
`Stats`, run the body, then run the deferred delete. -/
def Dir.processFilesAt {ρ : Type} (d : Dir) (E : RegexEngine ρ) (sep : Char)
    (fs : FS) (st : Stats) (inFilePath : String) : FS × Stats :=
  match matchLoop E sep inFilePath d.MatchGroups with
  | .error _ => (fs, st)
  | .ok false => (fs, st)
  | .ok true =>
    match fs inFilePath with
    | none => ((d.processError fs inFilePath d.MonitorFolder).1, st)
    | some sz =>
      (d.runDefer (d.pipelineBody fs inFilePath) inFilePath, st.Inc sz)

/-- Model of `Dir.processFiles`: the source path is
`filepath.Join(dir, fileInfo.Name())`. -/
def Dir.processFiles {ρ : Type} (d : Dir) (E : RegexEngine ρ) (sep : Char)
    (fs : FS) (st : Stats) (dir fileName : String) : FS × Stats :=
  d.processFilesAt E sep fs st (goJoin dir fileName)

/-- What `Dir.readDir` does to a visited directory that it has listed. -/
inductive EmptyDirAction
  | kept
  | removed
  | removeFailed
deriving DecidableEq, Repr

/-- Model of the empty-directory handling of `Dir.readDir` (latest
revision): with no entries, the directory is kept when it is the root or
when `KeepEmptyDirs` is false, otherwise `os.Remove` is attempted
(`removeOk` is its outcome); with entries present the directory is kept
and its entries are walked. -/
def readDirEmptyStep (keepEmptyDirs root : Bool) (entries : Nat)
    (removeOk : Bool) : EmptyDirAction :=
  if entries = 0 then
    if root || !keepEmptyDirs then .kept
    else if removeOk then .removed
    else .removeFailed
  else .kept

/-- Result of `Init` (monitor.go): a monitor, a soft "no monitor" result
(`nil, nil`), or a hard error. -/
inductive InitResult
  | monitor
  | noMonitor
  | err (msg : String)
deriving DecidableEq, Repr

/-- Whether an `InitResult` is a hard error. -/
def InitResult.isErr : InitResult → Bool
  | .err _ => true
  | _ => false

/-- Model of `Init` (monitor.go): an empty path is a hard error; a path
whose stat reports not-exist is a soft failure (log only, no monitor, no
error); open, read, and unmarshal failures of an existing file are hard
errors; otherwise the monitor is returned. -/
def Init (configPath : String) (fileExists openOk readOk parseOk : Bool) :
    InitResult :=
  if configPath = "" then .err "configPath cannot be empty"
  else if fileExists = false then .noMonitor
  else if openOk = false then .err "unable to open configuration file"
  else if readOk = false then .err "error reading data from file"
  else if parseOk = false then .err "unable to unmarshal fileMonitor config file"
  else .monitor

/-- A minimal JSON value model: numbers, strings, and objects (the only
shapes the Copier (de)serialisation code manipulates). -/
inductive Json
  | num (n : Int)
  | str (s : String)
  | obj (fields : List (String × Json))

/-- First field with the given key, as Go's map lookup. -/
def findField (k : String) : List (String × Json) → Option Json
  | [] => none
  | (k', v) :: rest => if k' = k then some v else findField k rest

/-- Key lookup on an object; `none` on non-objects. -/
def Json.lookupKey (j : Json) (k : String) : Option Json :=
  match j with
  | .obj fields => findField k fields
  | _ => none

/-- Go `json.Unmarshal` of an object field into a string struct field: a
missing field leaves the zero value `""`, a string field is taken, any
other shape is a type error. -/
def getStrField (j : Json) (k : String) : Except String String :=
  match j.lookupKey k with
  | none => .ok ""
  | some (.str s) => .ok s
  | some _ => .error "json: cannot unmarshal field"

/-- The two concrete Copier variants of linux.go.  The FTP variant's
`EncryptionFunc`/`DecryptionFunc` fields are function-valued and excluded
from JSON; their only observable use in `Copy` is the nil check at its
top, so they are modelled by presence flags. -/
inductive GoCopier
  | local (Destination : String)
  | ftp (Server Username Password Destination : String)
      (hasEncryptionFunc hasDecryptionFunc : Bool)
deriving DecidableEq, Repr

/-- `GetType` of the two variants: `CopierTypeLocal = 1`,
`CopierTypeFTP = 2` (`CopierTypeNull = 0`). -/
def GoCopier.GetType : GoCopier → Int
  | .local _ => 1
  | .ftp .. => 2

/-- Model of `CopierLocal.MarshalJSON` / `CopierFtp.MarshalJSON`: marshal
the persisted fields with the type discriminator injected as the `Type`
field (the FTP function fields carry a `json:"-"` tag and are omitted). -/
def GoCopier.MarshalJSON : GoCopier → Json
  | .local dest => .obj [("Type", .num 1), ("Destination", .str dest)]
  | .ftp s u p dest _ _ =>
    .obj [("Type", .num 2), ("Server", .str s), ("Username", .str u),
      ("Password", .str p), ("Destination", .str dest)]

/-- The round-tripped value: function-valued fields are not persisted, so
they come back absent. -/
def GoCopier.dropFuncs : GoCopier → GoCopier
  | .local dest => .local dest
  | .ftp s u p dest _ _ => .ftp s u p dest false false

/-- The configuration check at the top of `CopierFtp.Copy`: both an
encryption and a decryption function must be present, else `Copy` fails
immediately with the corresponding error.  `CopierLocal.Copy` has no such
check. -/
def GoCopier.copyConfigError : GoCopier → Option String
  | .local _ => none
  | .ftp _ _ _ _ he hd =>
    if he && hd then none
    else some "must supply both an encryption and decryption function"

/-- Model of the `CopierAlias` struct (linux.go): the extracted
discriminator (the Go field is named `Type`, which Lean reserves) and the
remaining detail payload. -/
structure CopierAlias where
  TypeId : Int
  Details : Json

/-- Model of `CopierAlias.UnmarshalJSON`: unmarshal into a key map (a
non-object fails), extract the `Type` field (missing is an explicit
error, a non-number is an explicit error), and keep the remaining fields
as the detail payload. -/
def CopierAlias.UnmarshalJSON (data : Json) : Except String CopierAlias :=
  match data with
  | .obj fields =>
    match findField "Type" fields with
    | none => .error "missing Type field in Copier"
    | some tv =>
      match tv with
      | .num n => .ok ⟨n, .obj (fields.filter fun kv => kv.1 != "Type")⟩
      | _ => .error "invalid Type field"
  | _ => .error "json: cannot unmarshal into map"

/-- Model of `CopierAlias.GetCopier`: dispatch on the discriminator
(`0` is "no type provided", unknown values are "invalid type"), then
unmarshal the detail payload into the chosen variant. -/
def CopierAlias.GetCopier (c : CopierAlias) : Except String GoCopier :=
  if c.TypeId = 0 then .error "no type provided"
  else if c.TypeId = 1 then
    match getStrField c.Details "Destination" with
    | .error e => .error e
    | .ok dest => .ok (.local dest)
  else if c.TypeId = 2 then
    match getStrField c.Details "Server", getStrField c.Details "Username",
      getStrField c.Details "Password", getStrField c.Details "Destination" with
    | .ok s, .ok u, .ok p, .ok dest => .ok (.ftp s u p dest false false)
    | _, _, _, _ => .error "json: cannot unmarshal field"
  else .error ("invalid type: " ++ toString c.TypeId)

/-- Serialise then deserialise a configured copier. -/
def roundTrip (c : GoCopier) : Except String GoCopier :=
  match CopierAlias.UnmarshalJSON c.MarshalJSON with
  | .error e => .error e
  | .ok a => a.GetCopier

/-- A trivial engine for concrete instantiations: everything compiles and
every expression matches every path. -/
def anyEngine : RegexEngine Unit :=
  ⟨fun _ => some (), fun _ _ => true⟩

/-- A concrete engine whose expression `"["` fails to compile (as it does
under Go's `regexp.Compile`), and that otherwise matches by prefix. -/
def demoEngine : RegexEngine String :=
  ⟨fun e => if e = "[" then none else some e, fun r s => r.isPrefixOf s⟩

/-- Invariant connecting a file-system state to a later one during the
pipeline of one source file: the source is still present with its
content, and every path either is untouched or holds a copy of the
source's content. -/
def Evolves (fs fs' : FS) (fp : String) (data : Nat) : Prop :=
  fs' fp = some data ∧ ∀ p, fs' p = fs p ∨ fs' p = some data

theorem evolves_refl {fs : FS} {fp : String} {data : Nat}
    (h : fs fp = some data) : Evolves fs fs fp data :=
  ⟨h, fun _ => Or.inl rfl⟩

theorem evolves_trans {fs1 fs2 fs3 : FS} {fp : String} {data : Nat}
    (h12 : Evolves fs1 fs2 fp data) (h23 : Evolves fs2 fs3 fp data) :
    Evolves fs1 fs3 fp data := by
  refine ⟨h23.1, fun p => ?_⟩
  rcases h23.2 p with h | h
  · rw [h]; exact h12.2 p
  · exact Or.inr h

theorem evolves_keep {fs1 fs2 : FS} {fp q : String} {data : Nat}
    (h : Evolves fs1 fs2 fp data) (hq : fs1 q = some data) : fs2 q = some data := by
  rcases h.2 q with h' | h'
  · rw [h', hq]
  · exact h'

theorem writeFS_self (fs : FS) (q : String) (v : Nat) : writeFS fs q v q = some v := by
  simp [writeFS]

theorem write_evolves {fs : FS} {fp : String} {data : Nat}
    (h : fs fp = some data) (q : String) :
    Evolves fs (writeFS fs q data) fp data := by
  refine ⟨?_, fun p => ?_⟩
  · unfold writeFS; split <;> simp [h]
  · unfold writeFS; split
    · exact Or.inr rfl
    · exact Or.inl rfl

theorem CopyFS_ok {c : Copier} {fs : FS} {fp : String} {data : Nat} (mf : String)
    (hc : c.ok = true) (h : fs fp = some data) :
    c.CopyFS fs fp mf = .ok (writeFS fs (getOutFileName fp mf c.Destination) data) := by
  simp [Copier.CopyFS, hc, h]

theorem CopyFS_fail {c : Copier} (fs : FS) (fp mf : String) (hc : c.ok = false) :
    c.CopyFS fs fp mf = .error ("error copying file to " ++ c.Destination) := by
  simp [Copier.CopyFS, hc]

theorem errCopyLoop_spec (fp mf : String) (data : Nat) :
    ∀ (cs : List Copier) (fs : FS), fs fp = some data →
      Evolves fs (errCopyLoop fs fp mf cs).1 fp data
      ∧ (∀ c ∈ cs, c.ok = true →
          (errCopyLoop fs fp mf cs).1 (getOutFileName fp mf c.Destination) = some data)
      ∧ (errCopyLoop fs fp mf cs).2
          = ((cs.filter fun c => !c.ok).map
              fun c => "error copying file to " ++ c.Destination)
  | [], fs, h => ⟨evolves_refl h, by simp, by simp [errCopyLoop]⟩
  | c :: cs, fs, h => by
    cases hc : c.ok with
    | true =>
      have hcopy := CopyFS_ok mf hc h
      have hw := write_evolves h (getOutFileName fp mf c.Destination)
      have ih := errCopyLoop_spec fp mf data cs
        (writeFS fs (getOutFileName fp mf c.Destination) data) hw.1
      refine ⟨?_, ?_, ?_⟩
      · simp only [errCopyLoop, hcopy]
        exact evolves_trans hw ih.1
      · intro c' hc' hok
        simp only [errCopyLoop, hcopy]
        rcases List.mem_cons.mp hc' with rfl | hmem
        · exact evolves_keep ih.1 (writeFS_self _ _ _)
        · exact ih.2.1 c' hmem hok
      · simp only [errCopyLoop, hcopy, List.filter_cons, hc]
        exact ih.2.2
    | false =>
      have hfail := CopyFS_fail (c := c) fs fp mf hc
      have ih := errCopyLoop_spec fp mf data cs fs h
      refine ⟨?_, ?_, ?_⟩
      · simp only [errCopyLoop, hfail]
        exact ih.1
      · intro c' hc' hok
        simp only [errCopyLoop, hfail]
        rcases List.mem_cons.mp hc' with rfl | hmem
        · rw [hok] at hc; cases hc
        · exact ih.2.1 c' hmem hok
      · simp only [errCopyLoop, hfail, List.filter_cons, hc]
        simp [ih.2.2]

theorem processError_evolves {d : Dir} {fs : FS} {fp : String} {data : Nat}
    (mf : String) (h : fs fp = some data) :
    Evolves fs (d.processError fs fp mf).1 fp data
    ∧ ∀ c ∈ d.ErrorCopiers, c.ok = true →
        (d.processError fs fp mf).1 (getOutFileName fp mf c.Destination) = some data := by
  have hspec := errCopyLoop_spec fp mf data d.ErrorCopiers fs h
  exact ⟨hspec.1, hspec.2.1⟩

theorem pubLoop_allok {d : Dir} {fp : String} {data : Nat} :
    ∀ (ps : List Publisher) (fs : FS), fs fp = some data → (∀ p ∈ ps, p.ok = true) →
      (d.pubLoop fs fp ps).2 = true ∧ Evolves fs (d.pubLoop fs fp ps).1 fp data
  | [], fs, h, _ => ⟨rfl, evolves_refl h⟩
  | p :: ps, fs, h, hok => by
    have hp : p.ok = true := hok p (by simp)
    have hpe := processError_evolves (d := d) d.MonitorFolder h
    have ih := pubLoop_allok (d := d) ps (d.processError fs fp d.MonitorFolder).1 hpe.1.1
      (fun q hq => hok q (by simp [hq]))
    simp only [Dir.pubLoop, hp, if_true]
    exact ⟨ih.1, evolves_trans hpe.1 ih.2⟩

theorem copyLoop_allok {d : Dir} {fp : String} {data : Nat} :
    ∀ (cs : List Copier) (fs : FS), fs fp = some data → (∀ c ∈ cs, c.ok = true) →
      (d.copyLoop fs fp cs).2 = true
      ∧ Evolves fs (d.copyLoop fs fp cs).1 fp data
      ∧ ∀ c ∈ cs,
          (d.copyLoop fs fp cs).1 (getOutFileName fp d.MonitorFolder c.Destination) = some data
  | [], fs, h, _ => ⟨rfl, evolves_refl h, by simp⟩
  | c :: cs, fs, h, hok => by
    have hc : c.ok = true := hok c (by simp)
    have hcopy := CopyFS_ok d.MonitorFolder hc h
    have hw := write_evolves h (getOutFileName fp d.MonitorFolder c.Destination)
    have ih := copyLoop_allok (d := d) cs
      (writeFS fs (getOutFileName fp d.MonitorFolder c.Destination) data) hw.1
      (fun q hq => hok q (by simp [hq]))
    refine ⟨?_, ?_, ?_⟩
    · simp only [Dir.copyLoop, hcopy]
      exact ih.1
    · simp only [Dir.copyLoop, hcopy]
      exact evolves_trans hw ih.2.1
    · intro c' hc'
      simp only [Dir.copyLoop, hcopy]
      rcases List.mem_cons.mp hc' with rfl | hmem
      · exact evolves_keep ih.2.1 (writeFS_self _ _ _)
      · exact ih.2.2 c' hmem

theorem copyLoop_fail {d : Dir} {fp : String} {data : Nat} :
    ∀ (pre : List Copier) (bad : Copier) (rest : List Copier) (fs : FS),
      fs fp = some data → (∀ c ∈ pre, c.ok = true) → bad.ok = false →
      (d.copyLoop fs fp (pre ++ bad :: rest)).2 = false
      ∧ Evolves fs (d.copyLoop fs fp (pre ++ bad :: rest)).1 fp data
      ∧ ∀ c ∈ d.ErrorCopiers, c.ok = true →
          (d.copyLoop fs fp (pre ++ bad :: rest)).1
            (getOutFileName fp d.MonitorFolder c.Destination) = some data
  | [], bad, rest, fs, h, _, hbad => by
    have hfail := CopyFS_fail (c := bad) fs fp d.MonitorFolder hbad
    have hpe := processError_evolves (d := d) d.MonitorFolder h
    simp only [List.nil_append, Dir.copyLoop, hfail]
    exact ⟨by trivial, hpe.1, hpe.2⟩
  | c :: pre, bad, rest, fs, h, hpre, hbad => by
    have hc : c.ok = true := hpre c (by simp)
    have hcopy := CopyFS_ok d.MonitorFolder hc h
    have hw := write_evolves h (getOutFileName fp d.MonitorFolder c.Destination)
    have ih := copyLoop_fail (d := d) pre bad rest
      (writeFS fs (getOutFileName fp d.MonitorFolder c.Destination) data) hw.1
      (fun q hq => hpre q (by simp [hq])) hbad
    simp only [List.cons_append, Dir.copyLoop, hcopy]
    exact ⟨ih.1, evolves_trans hw ih.2.1, ih.2.2⟩

theorem pipelineBody_success {d : Dir} {fs : FS} {fp : String} {data : Nat}
    (h : fs fp = some data)
    (hproc : ∀ pOk, d.Processor = some pOk → pOk = true)
    (hpubs : ∀ p ∈ d.Publishers, p.ok = true)
    (hcops : ∀ c ∈ d.Copiers, c.ok = true) :
    Evolves fs (d.pipelineBody fs fp) fp data
    ∧ ∀ c ∈ d.Copiers,
        d.pipelineBody fs fp (getOutFileName fp d.MonitorFolder c.Destination) = some data := by
  unfold Dir.pipelineBody
  cases hP : d.Processor with
  | none =>
    have hcl := copyLoop_allok (d := d) d.Copiers fs h hcops
    exact ⟨hcl.2.1, hcl.2.2⟩
  | some pOk =>
    have hpt : pOk = true := hproc pOk hP
    subst hpt
    have hpl := pubLoop_allok (d := d) d.Publishers fs h hpubs
    have hcl := copyLoop_allok (d := d) d.Copiers (d.pubLoop fs fp d.Publishers).1
      hpl.2.1 hcops
    simp only [if_true, hpl.1]
    exact ⟨evolves_trans hpl.2 hcl.2.1, hcl.2.2⟩

theorem pipelineBody_fail {d : Dir} {fs : FS} {fp : String} {data : Nat}
    (h : fs fp = some data)
    (hfail : d.Processor = some false
      ∨ ((∀ pOk, d.Processor = some pOk → pOk = true)
          ∧ (∀ p ∈ d.Publishers, p.ok = true)
          ∧ ∃ pre bad rest, d.Copiers = pre ++ bad :: rest
              ∧ (∀ c ∈ pre, c.ok = true) ∧ bad.ok = false)) :
    Evolves fs (d.pipelineBody fs fp) fp data
    ∧ (∀ c ∈ d.ErrorCopiers, c.ok = true →
        d.pipelineBody fs fp (getOutFileName fp d.MonitorFolder c.Destination) = some data)
    ∧ (d.ErrorCopiers = [] → d.Processor = some false →
        ∀ p, d.pipelineBody fs fp p = fs p) := by
  rcases hfail with hP | ⟨hproc, hpubs, pre, bad, rest, hsplit, hpre, hbad⟩
  · have hpe := processError_evolves (d := d) d.MonitorFolder h
    unfold Dir.pipelineBody
    rw [hP]
    refine ⟨hpe.1, hpe.2, fun hec _ p => ?_⟩
    simp [Dir.processError, hec, errCopyLoop]
  · unfold Dir.pipelineBody
    cases hP : d.Processor with
    | none =>
      rw [hsplit]
      have hcl := copyLoop_fail (d := d) pre bad rest fs h hpre hbad
      refine ⟨hcl.2.1, hcl.2.2, fun _ hcontra => ?_⟩
      simp at hcontra
    | some pOk =>
      have hpt : pOk = true := hproc pOk hP
      subst hpt
      have hpl := pubLoop_allok (d := d) d.Publishers fs h hpubs
      have hcl := copyLoop_fail (d := d) pre bad rest (d.pubLoop fs fp d.Publishers).1
        hpl.2.1 hpre hbad
      rw [hsplit]
      simp only [if_true, hpl.1]
      refine ⟨evolves_trans hpl.2 hcl.2.1, hcl.2.2, fun _ hcontra => ?_⟩
      simp at hcontra

theorem runDefer_spec {d : Dir} {fs : FS} {fp : String} {data : Nat}
    (h : fs fp = some data) :
    d.runDefer fs fp fp = none ∧ ∀ q, q ≠ fp → d.runDefer fs fp q = fs q := by
  simp only [Dir.runDefer, removeFS, h]
  exact ⟨by simp, fun q hq => by simp [hq]⟩

theorem processFilesAt_run {ρ : Type} {E : RegexEngine ρ} {sep : Char} {d : Dir}
    {fs : FS} {st : Stats} {fp : String} {data : Nat}
    (hm : matchLoop E sep fp d.MatchGroups = .ok true)
    (h : fs fp = some data) :
    d.processFilesAt E sep fs st fp
      = (d.runDefer (d.pipelineBody fs fp) fp, st.Inc data) := by
  simp only [Dir.processFilesAt, hm, h]

theorem matchLoop_ok_iff {ρ : Type} (E : RegexEngine ρ) (sep : Char) (fp : String) :
    ∀ gs : List MatchGroup,
      matchLoop E sep fp gs = .ok true
        ↔ ∀ g ∈ gs, ∃ r, E.compile g.Expression = some r
            ∧ (E.matchString r (replaceSep sep fp) != g.Exclude) = true
  | [] => by simp [matchLoop]
  | g :: gs => by
    have ih := matchLoop_ok_iff E sep fp gs
    cases hc : E.compile g.Expression with
    | none =>
      simp [matchLoop, MatchGroup.Match, hc, List.forall_mem_cons]
    | some r =>
      cases hb : E.matchString r (replaceSep sep fp) != g.Exclude with
      | false =>
        simp only [matchLoop, MatchGroup.Match, hc, hb, List.forall_mem_cons]
        constructor
        · intro h; cases h
        · rintro ⟨⟨r', hr', hb'⟩, _⟩
          obtain rfl : r = r' := Option.some.inj hr'
          rw [hb] at hb'; cases hb'
      | true =>
        simp only [matchLoop, MatchGroup.Match, hc, hb, List.forall_mem_cons, ih]
        constructor
        · intro hrest; exact ⟨⟨r, rfl, hb⟩, hrest⟩
        · rintro ⟨_, hrest⟩; exact hrest

/-- Claim C10: for all Stats values `s` and `o`, `s.Sub(o)` subtracts using
unsigned wraparound: each resulting counter equals the integer difference
of the two counters reduced mod 2^64, so subtracting a larger value wraps
to a very large counter rather than clamping at zero or erroring. -/
theorem c10_stats_sub_wraparound (s o : Stats)
    (h1 : s.TotalFiles < U64MOD) (h2 : o.TotalFiles < U64MOD)
    (h3 : s.TotalBytes < U64MOD) (h4 : o.TotalBytes < U64MOD) :
    ((s.Sub o).TotalFiles : Int)
      = ((s.TotalFiles : Int) - (o.TotalFiles : Int)) % (U64MOD : Int)
    ∧ ((s.Sub o).TotalBytes : Int)
      = ((s.TotalBytes : Int) - (o.TotalBytes : Int)) % (U64MOD : Int) := by
  unfold Stats.Sub U64MOD at *
  constructor <;> (simp only []; push_cast; omega)

/-- Witness for C10 at concrete counters: subtracting the larger
`{3, 5}` from `{1, 2}` wraps around 2^64. -/
theorem c10_stats_sub_wraparound_witness :
    ((Stats.Sub ⟨1, 2⟩ ⟨3, 5⟩).TotalFiles : Int) = ((1 : Int) - 3) % (U64MOD : Int) :=
  (c10_stats_sub_wraparound ⟨1, 2⟩ ⟨3, 5⟩ (by decide) (by decide) (by decide)
    (by decide)).1

/-- Claim C9: `Init` fails with an error on an empty configuration path; a
missing configuration file is a soft failure (no monitor, no error); any
other open/read/parse failure of an existing file is a hard error (and
the fully successful path yields the monitor). -/
theorem c9_init_error_handling (p : String) (f o r k : Bool) :
    (p = "" → Init p f o r k = .err "configPath cannot be empty")
    ∧ (p ≠ "" → f = false → Init p f o r k = .noMonitor)
    ∧ (p ≠ "" → f = true → (o = false ∨ r = false ∨ k = false) →
        (Init p f o r k).isErr = true)
    ∧ (p ≠ "" → f = true → o = true → r = true → k = true →
        Init p f o r k = .monitor) := by
  refine ⟨fun hp => by simp [Init, hp], fun hp hf => by simp [Init, hp, hf],
    fun hp hf hor => ?_, fun hp hf ho hr hk => by simp [Init, hp, hf, ho, hr, hk]⟩
  rcases hor with h | h | h <;> cases o <;> cases r <;> cases k <;>
    simp_all [Init, InitResult.isErr]

/-- Witness for C9 at a concrete input: a non-empty path whose file does
not exist yields the soft no-monitor result. -/
theorem c9_init_error_handling_witness :
    Init "fileMonitor.json" false true true true = .noMonitor :=
  (c9_init_error_handling "fileMonitor.json" false true true true).2.1
    (by decide) rfl

/-- Claim C6: a directory visited during a scan that contains no entries is
deleted exactly when empty-directory pruning is configured and the
directory is not the monitored root; the root, and any empty directory
when pruning is not configured, is skipped and left in place (and a
non-empty directory is never deleted).  In the code the pruning toggle is
the `KeepEmptyDirs` field, which prunes precisely when it is `true`
(despite its name): "pruning configured" here is that flag state. -/
theorem c6_empty_dir_pruning (keep root : Bool) :
    (readDirEmptyStep keep root 0 true = .removed ↔ (keep = true ∧ root = false))
    ∧ ((root = true ∨ keep = false) → readDirEmptyStep keep root 0 true = .kept)
    ∧ (∀ entries, entries ≠ 0 → ∀ removeOk,
        readDirEmptyStep keep root entries removeOk = .kept) := by
  refine ⟨?_, ?_, ?_⟩
  · cases keep <;> cases root <;> simp [readDirEmptyStep]
  · rintro (h | h) <;> simp [readDirEmptyStep, h]
  · intro n hn rOk
    simp [readDirEmptyStep, hn]

/-- Witness for C6 at a concrete input: the empty root is kept even with
pruning configured. -/
theorem c6_empty_dir_pruning_witness :
    readDirEmptyStep true true 0 true = .kept :=
  (c6_empty_dir_pruning true true).2.1 (Or.inl rfl)

/-- Claim C8, amended: serializing either Copier variant injects its type
discriminator; deserializing reads the discriminator and reconstructs the
variant with the same persisted fields — for Local the reconstruction is
exactly the original, while the FTP variant's non-persisted
encryption/decryption functions come back absent (so its `Copy` reports a
configuration error until they are re-injected); deserialization fails
with an explicit error when the discriminator is missing, unset, or
names no known variant. -/
theorem c8_roundtrip_amended (c : GoCopier) :
    (c.MarshalJSON).lookupKey "Type" = some (.num c.GetType)
    ∧ roundTrip c = .ok c.dropFuncs
    ∧ (∀ dest, roundTrip (.local dest) = .ok (.local dest))
    ∧ CopierAlias.UnmarshalJSON (.obj [("Destination", .str "d")])
        = .error "missing Type field in Copier"
    ∧ CopierAlias.GetCopier ⟨5, .obj []⟩ = .error ("invalid type: " ++ toString (5 : Int))
    ∧ CopierAlias.GetCopier ⟨0, .obj []⟩ = .error "no type provided" := by
  refine ⟨?_, ?_, fun dest => rfl, rfl, rfl, rfl⟩ <;> cases c <;> rfl

/-- Counterexample for C8 as stated: an FTP copier carrying injected
encryption/decryption functions round-trips to a value whose fields
differ (the functions are gone) and whose `Copy` behavior differs
observably (it now fails immediately with a configuration error, which
the original does not). -/
theorem c8_ftp_roundtrip_counterexample :
    roundTrip (.ftp "srv" "usr" "pwd" "/dst" true true)
      = .ok (.ftp "srv" "usr" "pwd" "/dst" false false)
    ∧ GoCopier.ftp "srv" "usr" "pwd" "/dst" false false
        ≠ .ftp "srv" "usr" "pwd" "/dst" true true
    ∧ GoCopier.copyConfigError (.ftp "srv" "usr" "pwd" "/dst" true true) = none
    ∧ GoCopier.copyConfigError (.ftp "srv" "usr" "pwd" "/dst" false false)
        = some "must supply both an encryption and decryption function" :=
  ⟨rfl, by decide, rfl, rfl⟩

/-- Claim C3: a file is accepted exactly when every rule in the list is
satisfied, where a rule is satisfied exactly when the compiled expression
matching the separator-normalized path differs from its exclude flag; and
whenever any rule's expression fails to compile, the match does not
accept and `processFiles` skips the file with no effect on the file
system or the stats (no deletion). -/
theorem c3_match_and_composition {ρ : Type} (E : RegexEngine ρ) (sep : Char) :
    (∀ (fp : String) (gs : List MatchGroup),
      matchLoop E sep fp gs = .ok true
        ↔ ∀ g ∈ gs, ∃ r, E.compile g.Expression = some r
            ∧ (E.matchString r (replaceSep sep fp) != g.Exclude) = true)
    ∧ ∀ (d : Dir) (fs : FS) (st : Stats) (dir fileName : String),
        (∃ g ∈ d.MatchGroups, E.compile g.Expression = none) →
        d.processFiles E sep fs st dir fileName = (fs, st) := by
  refine ⟨fun fp gs => matchLoop_ok_iff E sep fp gs, ?_⟩
  rintro d fs st dir fileName ⟨g, hg, hcomp⟩
  have hne : matchLoop E sep (goJoin dir fileName) d.MatchGroups ≠ .ok true := by
    intro h
    rcases (matchLoop_ok_iff E sep (goJoin dir fileName) d.MatchGroups).mp h g hg
      with ⟨r, hr, _⟩
    rw [hcomp] at hr
    cases hr
  unfold Dir.processFiles Dir.processFilesAt
  cases hml : matchLoop E sep (goJoin dir fileName) d.MatchGroups with
  | error e => rfl
  | ok b =>
    cases b with
    | false => rfl
    | true => exact absurd hml hne

/-- Witness for C3 at a concrete input: a rule whose expression fails to
compile under the concrete engine makes `processFiles` leave the file
system and stats untouched. -/
theorem c3_match_and_composition_witness :
    Dir.processFiles { MonitorFolder := "/m", MatchGroups := [⟨"[", false⟩] }
      demoEngine '/' (fun _ => (none : Option Nat)) ⟨0, 0⟩ "/m" "c"
      = (fun _ => (none : Option Nat), ⟨0, 0⟩) :=
  (c3_match_and_composition demoEngine '/').2 _ _ _ "/m" "c"
    ⟨⟨"[", false⟩, by decide, rfl⟩

/-- Claim C4, amended: for every file that passes matching and whose stat
succeeds, the watcher's `Stats` counters advance by exactly one file and
by the file's size (as uint64 wraparound additions, i.e. `Stats.Inc`),
regardless of whether the later process, publish, transport, or delete
steps succeed or fail. -/
theorem c4_stats_inc_amended {ρ : Type} (E : RegexEngine ρ) (sep : Char) (d : Dir)
    (fs : FS) (st : Stats) (dir fileName : String) (data : Nat)
    (hm : matchLoop E sep (goJoin dir fileName) d.MatchGroups = .ok true)
    (hsrc : fs (goJoin dir fileName) = some data) :
    (d.processFiles E sep fs st dir fileName).2 = st.Inc data := by
  unfold Dir.processFiles
  rw [processFilesAt_run hm hsrc]

/-- Counterexample for C4 as stated: a file that passes matching (the rule
list is empty, so every rule is satisfied) but whose stat fails leaves
the counters at zero, not incremented by one file. -/
theorem c4_stat_failure_counterexample :
    (Dir.processFiles { MonitorFolder := "/m" } anyEngine '/'
      (fun _ => (none : Option Nat)) ⟨0, 0⟩ "/m" "gone.csv").2 = ⟨0, 0⟩ := rfl

/-- Witness for C4 at a concrete input: a matched, statted file of size 3
advances the counters from `{0, 0}` to `{1, 3}` even though its only
success transport fails. -/
theorem c4_stats_inc_amended_witness :
    (Dir.processFiles { MonitorFolder := "/m", Copiers := [⟨"/out", false⟩] }
      anyEngine '/' (fun p => if p = "/m/e" then some 3 else none)
      ⟨0, 0⟩ "/m" "e").2 = ⟨1, 3⟩ :=
  c4_stats_inc_amended anyEngine '/' _ _ _ "/m" "e" 3 rfl rfl

/-- Claim C1: when the pipeline completes with no step failing (match
accepted, stat succeeds, any configured processor succeeds, every
publisher succeeds, every success transport succeeds — and then the
deferred delete succeeds), the source file no longer exists at its
original path, and each configured success transport holds a copy of it
at its destination root joined with the source path minus the
monitored-root prefix.  (The hypotheses require the monitored root not to
start with `"."`, matching the plain branch of `getOutFileName`, and each
transport's output path to differ from the source path.) -/
theorem c1_success_pipeline_delivers {ρ : Type} (E : RegexEngine ρ) (sep : Char)
    (d : Dir) (fs : FS) (st : Stats) (dir fileName : String) (data : Nat)
    (hm : matchLoop E sep (goJoin dir fileName) d.MatchGroups = .ok true)
    (hsrc : fs (goJoin dir fileName) = some data)
    (hdot : d.MonitorFolder.take 1 ≠ ".")
    (hproc : ∀ pOk, d.Processor = some pOk → pOk = true)
    (hpubs : ∀ p ∈ d.Publishers, p.ok = true)
    (hcops : ∀ c ∈ d.Copiers, c.ok = true)
    (hsep : ∀ c ∈ d.Copiers,
      goJoin c.Destination ((goJoin dir fileName).drop d.MonitorFolder.length)
        ≠ goJoin dir fileName) :
    (d.processFiles E sep fs st dir fileName).1 (goJoin dir fileName) = none
    ∧ ∀ c ∈ d.Copiers,
        (d.processFiles E sep fs st dir fileName).1
          (goJoin c.Destination ((goJoin dir fileName).drop d.MonitorFolder.length))
          = some data := by
  have hout : ∀ dest, getOutFileName (goJoin dir fileName) d.MonitorFolder dest
      = goJoin dest ((goJoin dir fileName).drop d.MonitorFolder.length) := by
    intro dest
    simp [getOutFileName, hdot]
  unfold Dir.processFiles
  rw [processFilesAt_run hm hsrc]
  have hbody := pipelineBody_success hsrc hproc hpubs hcops
  have hdefer := runDefer_spec (d := d) hbody.1.1
  refine ⟨hdefer.1, fun c hc => ?_⟩
  have h3 := hbody.2 c hc
  rw [hout c.Destination] at h3
  exact (hdefer.2 _ (hsep c hc)).trans h3

/-- Witness for C1 at a concrete input: a matched file `/m/a` of content 7
with one local transport to `/out` ends up deleted from `/m/a`. -/
theorem c1_success_pipeline_delivers_witness :
    (Dir.processFiles { MonitorFolder := "/m", MatchGroups := [⟨"x", false⟩],
                        Copiers := [⟨"/out", true⟩] } anyEngine '/'
      (fun p => if p = "/m/a" then some 7 else none) ⟨0, 0⟩ "/m" "a").1 "/m/a"
      = none :=
  (c1_success_pipeline_delivers anyEngine '/' _ _ _ "/m" "a" 7 (by rfl) (by rfl)
    (by decide) (by simp) (by simp) (by decide) (by decide)).1

/-- Claim C2, amended: for every file that passes all match rules and
stat, and whose pipeline then fails at the process step or at a success
transport, the source file is removed from its original path and a copy
of it exists under each configured error transport (whose own copy
succeeds) at the destination root joined with the source path minus the
monitored-root prefix; when no error transport is configured (process
failure case) the source file is still removed and nothing else changes
(no extra copy exists). -/
theorem c2_error_divert_amended {ρ : Type} (E : RegexEngine ρ) (sep : Char)
    (d : Dir) (fs : FS) (st : Stats) (dir fileName : String) (data : Nat)
    (hm : matchLoop E sep (goJoin dir fileName) d.MatchGroups = .ok true)
    (hsrc : fs (goJoin dir fileName) = some data)
    (hdot : d.MonitorFolder.take 1 ≠ ".")
    (hsep : ∀ c ∈ d.ErrorCopiers,
      goJoin c.Destination ((goJoin dir fileName).drop d.MonitorFolder.length)
        ≠ goJoin dir fileName)
    (hfail : d.Processor = some false
      ∨ ((∀ pOk, d.Processor = some pOk → pOk = true)
          ∧ (∀ p ∈ d.Publishers, p.ok = true)
          ∧ ∃ pre bad rest, d.Copiers = pre ++ bad :: rest
              ∧ (∀ c ∈ pre, c.ok = true) ∧ bad.ok = false)) :
    (d.processFiles E sep fs st dir fileName).1 (goJoin dir fileName) = none
    ∧ (∀ c ∈ d.ErrorCopiers, c.ok = true →
        (d.processFiles E sep fs st dir fileName).1
          (goJoin c.Destination ((goJoin dir fileName).drop d.MonitorFolder.length))
          = some data)
    ∧ (d.ErrorCopiers = [] → d.Processor = some false →
        ∀ p, (d.processFiles E sep fs st dir fileName).1 p
          = if p = goJoin dir fileName then none else fs p) := by
  have hout : ∀ dest, getOutFileName (goJoin dir fileName) d.MonitorFolder dest
      = goJoin dest ((goJoin dir fileName).drop d.MonitorFolder.length) := by
    intro dest
    simp [getOutFileName, hdot]
  unfold Dir.processFiles
  rw [processFilesAt_run hm hsrc]
  have hbody := pipelineBody_fail hsrc hfail
  have hdefer := runDefer_spec (d := d) hbody.1.1
  refine ⟨hdefer.1, fun c hc hcok => ?_, fun hec hpf p => ?_⟩
  · have h3 := hbody.2.1 c hc hcok
    rw [hout c.Destination] at h3
    exact (hdefer.2 _ (hsep c hc)).trans h3
  · by_cases hp : p = goJoin dir fileName
    · subst hp
      rw [if_pos rfl]
      exact hdefer.1
    · rw [if_neg hp]
      exact (hdefer.2 _ hp).trans (hbody.2.2 hec hpf p)

/-- Counterexample for C2 as stated: a file that passes matching and stat
and whose pipeline then fails at the publish step is removed, but no copy
of it reaches the configured error transport (the source returns from a
failed publish without invoking the error copiers), contradicting the
claim's "a copy of it exists under each configured error-Transport". -/
theorem c2_publish_failure_counterexample :
    ((Dir.processFiles { MonitorFolder := "/m", Processor := some true,
                         Publishers := [⟨false⟩],
                         ErrorCopiers := [⟨"/err", true⟩] } anyEngine '/'
      (fun p => if p = "/m/a" then some 5 else none) ⟨0, 0⟩ "/m" "a").1
      (getOutFileName "/m/a" "/m" "/err") = none)
    ∧ ((Dir.processFiles { MonitorFolder := "/m", Processor := some true,
                           Publishers := [⟨false⟩],
                           ErrorCopiers := [⟨"/err", true⟩] } anyEngine '/'
      (fun p => if p = "/m/a" then some 5 else none) ⟨0, 0⟩ "/m" "a").1 "/m/a"
      = none) :=
  ⟨rfl, rfl⟩

/-- Witness for C2 (amended) at a concrete input: a process-step failure
diverts `/m/b` (content 9) to the error transport at `/ec/b`. -/
theorem c2_error_divert_amended_witness :
    (Dir.processFiles { MonitorFolder := "/m", Processor := some false,
                        ErrorCopiers := [⟨"/ec", true⟩] } anyEngine '/'
      (fun p => if p = "/m/b" then some 9 else none) ⟨0, 0⟩ "/m" "b").1 "/ec/b"
      = some 9 :=
  (c2_error_divert_amended anyEngine '/' _ _ _ "/m" "b" 9 (by rfl) (by rfl)
    (by decide) (by decide) (Or.inl rfl)).2.1 ⟨"/ec", true⟩ (by decide) rfl

/-- Claim C5 (code bug): the spec requires a publish failure to invoke
error-divert before stopping, and no error-divert after a successful
publish; the code does the opposite.  At a concrete input with a failing
publisher and one working error transport, the error destination stays
empty while the source is deleted (first two conjuncts); with the same
configuration but a succeeding publisher, the error transport receives a
copy even though nothing failed (third conjunct). -/
theorem c5_publish_error_divert_bug :
    ((Dir.processFiles { MonitorFolder := "/m", Processor := some true,
                         Publishers := [⟨false⟩],
                         ErrorCopiers := [⟨"/e", true⟩] } anyEngine '/'
      (fun p => if p = "/m/a" then some 5 else none) ⟨0, 0⟩ "/m" "a").1
      (getOutFileName "/m/a" "/m" "/e") = none)
    ∧ ((Dir.processFiles { MonitorFolder := "/m", Processor := some true,
                           Publishers := [⟨false⟩],
                           ErrorCopiers := [⟨"/e", true⟩] } anyEngine '/'
      (fun p => if p = "/m/a" then some 5 else none) ⟨0, 0⟩ "/m" "a").1 "/m/a"
      = none)
    ∧ ((Dir.processFiles { MonitorFolder := "/m", Processor := some true,
                           Publishers := [⟨true⟩],
                           ErrorCopiers := [⟨"/e", true⟩] } anyEngine '/'
      (fun p => if p = "/m/a" then some 5 else none) ⟨0, 0⟩ "/m" "a").1
      (getOutFileName "/m/a" "/m" "/e") = some 5) :=
  ⟨rfl, rfl, rfl⟩

theorem classifyErrors_multi (e1 e2 : String) (es : List String) :
    classifyErrors (e1 :: e2 :: es)
      = some (toString (e1 :: e2 :: es).length
          ++ " errors occurred while processing files: "
          ++ String.join ((e1 :: e2 :: es).map fun e => "\n" ++ e)) := rfl

/-- Claim C7: `processError` invokes every configured error transport on
the source file regardless of which transports fail (each succeeding
transport's copy is present afterwards, and the collected failures are
exactly the failing transports of the whole list, in order); it returns
success when zero transports fail, the single wrapped error when exactly
one fails, and one aggregate error carrying the failure count and the
concatenation of all individual failures when more than one fails. -/
theorem c7_process_error_aggregation (d : Dir) (fs : FS) (fp mf : String)
    (data : Nat) (hsrc : fs fp = some data) :
    ((errCopyLoop fs fp mf d.ErrorCopiers).2
      = ((d.ErrorCopiers.filter fun c => !c.ok).map
          fun c => "error copying file to " ++ c.Destination))
    ∧ (∀ c ∈ d.ErrorCopiers, c.ok = true →
        (d.processError fs fp mf).1 (getOutFileName fp mf c.Destination) = some data)
    ∧ ((d.processError fs fp mf).2 = none
        ↔ (d.ErrorCopiers.filter fun c => !c.ok) = [])
    ∧ (∀ c, (d.ErrorCopiers.filter fun c => !c.ok) = [c] →
        (d.processError fs fp mf).2
          = some ("error occurred while processing errors: "
              ++ ("error copying file to " ++ c.Destination)))
    ∧ (2 ≤ (d.ErrorCopiers.filter fun c => !c.ok).length →
        (d.processError fs fp mf).2
          = some (toString (d.ErrorCopiers.filter fun c => !c.ok).length
              ++ " errors occurred while processing files: "
              ++ String.join ((d.ErrorCopiers.filter fun c => !c.ok).map
                  fun c => "\n" ++ ("error copying file to " ++ c.Destination)))) := by
  have hspec := errCopyLoop_spec fp mf data d.ErrorCopiers fs hsrc
  have hsnd : (d.processError fs fp mf).2
      = classifyErrors (errCopyLoop fs fp mf d.ErrorCopiers).2 := rfl
  refine ⟨hspec.2.2, hspec.2.1, ?_, ?_, ?_⟩
  · rw [hsnd, hspec.2.2]
    cases hfd : d.ErrorCopiers.filter fun c => !c.ok with
    | nil => simp [classifyErrors]
    | cons c1 cs =>
      cases cs with
      | nil => simp [classifyErrors]
      | cons c2 cs' => simp [classifyErrors]
  · intro c hfd
    rw [hsnd, hspec.2.2, hfd]
    rfl
  · intro hlen
    rw [hsnd, hspec.2.2]
    cases hfd : d.ErrorCopiers.filter fun c => !c.ok with
    | nil => rw [hfd] at hlen; simp at hlen
    | cons c1 cs =>
      cases cs with
      | nil => rw [hfd] at hlen; simp at hlen
      | cons c2 cs' =>
        rw [List.map_cons, List.map_cons, classifyErrors_multi]
        simp only [List.length_map, List.map_map, List.map_cons, List.length_cons]
        rfl

/-- Witness for C7 at a concrete input: with error transports
[fail, succeed, fail], the succeeding one receives its copy and the
returned error aggregates both failures behind the count 2. -/
theorem c7_process_error_aggregation_witness :
    (Dir.processError { MonitorFolder := "/m",
                        ErrorCopiers := [⟨"/a", false⟩, ⟨"/b", true⟩,
                          ⟨"/c", false⟩] }
      (fun p => if p = "/m/x" then some 1 else none) "/m/x" "/m").2
      = some ("2 errors occurred while processing files: "
          ++ ("\n" ++ "error copying file to /a" ++ ("\n" ++ "error copying file to /c"))) :=
  (c7_process_error_aggregation _ _ "/m/x" "/m" 1 rfl).2.2.2.2 (by decide)

end FileMonitor
